import Mathlib

/-!
Verification of `netatmo_collector.py` against its specification.

The program is a single Python script that partitions city regions into
rectangular tiles (`generate_city_tiles`), fetches public weather data per
tile (`get_public_data`), normalizes the raw JSON into flat records
(`parse_public_data`), and aggregates per-tile record sets into one
deduplicated dataset (`main`).

The shallow embedding below follows the source line by line:
* Python floats are modelled as rationals (`ℚ`); `round(x, 4)` is modelled
  by `round4`, ideal round-half-to-even at four decimals.
* JSON values are modelled by the inductive `PVal`; JSON object keys are
  strings (as produced by `r.json()`), so an integer-key dictionary lookup
  (`res.get(ts)` with `ts : int`) never finds a key and is modelled by
  `pyGetInt`, which is constantly `none`.
* Python's `int(k)` on a string key is modelled by `pyInt?`: optional
  surrounding whitespace, an optional sign, a decimal digit run with `_`
  separators between digits.  Python also accepts non-ASCII decimal
  digits and Unicode whitespace; those characters are outside the
  embedding and outside every quantified statement below.
* `pandas` dataframes of the built rows are modelled as `List Record`;
  `drop_duplicates(subset=["device_id"])` is `dedupBy` (keep first
  occurrence) and `dropna(subset=["temperature_c"])` is a filter on
  `isMissing` (a cell is missing when the Python value is `None`, i.e.
  the option is `none` or the stored JSON value is null).
* Network effects are modelled by a transcript of `FetchOutcome`s that the
  transport delivers to successive requests.  The script's two uncaught
  exception points are modelled explicitly: the display-timestamp
  conversion (outside any `try`, raising for epochs beyond `datetime`'s
  year range) by `parse_public_data_exc`, and the per-tile loop's raise
  points by `TileStep` — a tile can raise before its frame is produced,
  or after the frame was already appended and counted successful (the
  `mean` report line).  Everything the script guards with `try`/`except`
  is embedded as a total function.
-/

/-- A Python/JSON value as far as the script observes it. -/
inductive PVal where
  | pnum (q : ℚ)
  | pstr (s : String)
  | plist (l : List PVal)
  | pnull
  | pdict (d : List (String × PVal))

/-- Python truthiness of a `PVal` (used by the `or` in
`res.get(str(ts)) or res.get(ts)`). -/
def isTruthy : PVal → Bool
  | .pnum q => decide (q ≠ 0)
  | .pstr s => decide (s ≠ "")
  | .plist l => !l.isEmpty
  | .pnull => false
  | .pdict d => !d.isEmpty

/-- `d.get(k)` on a string-keyed Python dict (JSON object). -/
def pyGet (d : List (String × PVal)) (k : String) : Option PVal :=
  (d.find? (fun kv => kv.1 == k)).map (fun kv => kv.2)

/-- `d.get(k, default)` on a string-keyed Python dict. -/
def pyGetD (d : List (String × PVal)) (k : String) (dflt : PVal) : PVal :=
  (pyGet d k).getD dflt

/-- `d.get(k)` with an integer key: a JSON-parsed dict has only string
keys, so the lookup always misses. -/
def pyGetInt (_ : List (String × PVal)) (_ : Int) : Option PVal := none

/-- Python `a or b` over optional values (`dict.get` results). -/
def pyOr (a b : Option PVal) : Option PVal :=
  match a with
  | some v => if isTruthy v then some v else b
  | none => b

/-- `v[i]` guarded by `isinstance(v, list) and len(v) > i`
(the script's positional access to the `location` pair). -/
def pyIndex (v : PVal) (i : Nat) : Option PVal :=
  match v with
  | .plist l => if i < l.length then l.get? i else none
  | _ => none

/-- The numeric value of one decimal digit character. -/
def digitVal (c : Char) : Option Nat :=
  if c.isDigit then some (c.toNat - '0'.toNat) else none

/-- The whitespace characters `int()` strips from both ends (the ASCII
ones: space, `\t`, `\n`, `\r`, `\v`, `\f`). -/
def pyWhite (c : Char) : Bool :=
  c == ' ' || c == '\t' || c == '\n' || c == '\r' ||
  c == '\x0b' || c == '\x0c'

/-- The characters that can appear at all in a string `int()` accepts:
digits, a sign, the `_` separator, and surrounding whitespace. -/
def pyIntChar (c : Char) : Bool :=
  c.isDigit || c == '+' || c == '-' || c == '_' || pyWhite c

/-- Continue a decimal digit run after its first digit; `_` separators
are allowed strictly between digits (`afterSep` is true right after an
underscore, which must be followed by a digit, not by the end or by
another underscore). -/
def digitsTail : List Char → Bool → Nat → Option Nat
  | [], afterSep, acc => if afterSep then none else some acc
  | c :: cs, afterSep, acc =>
    if c == '_' then
      if afterSep then none else digitsTail cs true acc
    else
      match digitVal c with
      | some v => digitsTail cs false (acc * 10 + v)
      | none => none

/-- A non-empty decimal digit run with `_` separators between digits. -/
def parseDigits : List Char → Option Nat
  | [] => none
  | c :: cs =>
    match digitVal c with
    | some v => digitsTail cs false v
    | none => none

/-- Strip `pyWhite` characters from both ends. -/
def trimWhite (cs : List Char) : List Char :=
  ((cs.dropWhile pyWhite).reverse.dropWhile pyWhite).reverse

/-- Python's `int(s)` on a string: optional surrounding whitespace, an
optional `+`/`-` sign directly followed by a non-empty decimal digit
run with `_` separators between digits; everything else raises
(modelled as `none`).  Python additionally accepts non-ASCII decimal
digits and Unicode whitespace; those characters are outside this
embedding, and every quantified statement below stays within the ASCII
fragment (no claim exercises the rest). -/
def pyIntCore : List Char → Option Int
  | [] => none
  | c :: cs =>
    if c == '-' then (parseDigits cs).map (fun v => -(v : Int))
    else if c == '+' then (parseDigits cs).map (fun v => (v : Int))
    else (parseDigits (c :: cs)).map (fun v => (v : Int))

def pyInt? (s : String) : Option Int := pyIntCore (trimWhite s.data)

/-- `int(k)` for every key of `res`, in order; `none` models the
exception raised by the first non-numeric key (caught by the script's
bare `except`). -/
def parseKeys : List (String × PVal) → Option (List Int)
  | [] => some []
  | kv :: rest =>
    match pyInt? kv.1, parseKeys rest with
    | some n, some ns => some (n :: ns)
    | _, _ => none

/-- `max` over a list of ints (`max(int(k) for k in res.keys())`). -/
def maxIntList : List Int → Option Int
  | [] => none
  | x :: xs => some (xs.foldl max x)

/-- Lines 184–196 of `netatmo_collector.py`: extract
`(latest_temp, latest_ts)` from the `res` time-series of one device's
measure entry.  Total: every malformed shape yields `(none, none)`,
mirroring the guarded `isinstance` checks and the swallowed exception. -/
def latestFromRes (res : Option PVal) : Option PVal × Option Int :=
  match res with
  | some (.pdict d) =>
    if 0 < d.length then
      match parseKeys d with
      | none => (none, none)
      | some ks =>
        match maxIntList ks with
        | none => (none, none)
        | some ts =>
          match pyOr (pyGet d (toString ts)) (pyGetInt d ts) with
          | some (.plist l) =>
            if 0 < l.length then (l.head?, some ts) else (none, none)
          | _ => (none, none)
    else (none, none)
  | _ => (none, none)

/-- The tile fields `parse_public_data` reads (`tile_info["city"]`,
`tile_info["id"]`). -/
structure TileInfo where
  id : String
  city : String
deriving DecidableEq

/-- One value of the `measures` mapping: `m.get("type", [])` and
`m.get("res")`.  The `type` field of the API response is a JSON list;
`str(t).lower()` of a non-string JSON value never renders as
`"temperature"` or `"temp"`, which `capMatches` reflects. -/
structure DeviceMeasure where
  type : List PVal
  res : Option PVal

/-- One entry of the response `body`: `item.get("place", {})` and
`item.get("measures", {})`. -/
structure Item where
  place : List (String × PVal)
  measures : List (String × DeviceMeasure)

/-- The parsed JSON response; `public_json.get("body", [])`. -/
structure PublicJson where
  body : List Item

/-- `s.lower()`: map `Char.toLower` over the characters (structural
version of Lean's `String.toLower`; ASCII-only lowering, which covers
every capability string the claims exercise). -/
def pyLower (s : String) : String := String.mk (s.data.map Char.toLower)

/-- `str(t).lower() in ["temperature", "temp"]` for one capability. -/
def capMatches : PVal → Bool
  | .pstr t => pyLower t == "temperature" || pyLower t == "temp"
  | _ => false

/-- One row dict built by `parse_public_data` (lines 207–218).
`timestamp_amsterdam` holds the selected epoch second when the rendered
display string is set (`if latest_ts:`); the UTC+1 `strftime` rendering is
an injective function of that epoch and is not re-modelled. -/
structure Record where
  city_area : String
  tile_id : String
  device_id : String
  timestamp_amsterdam : Option Int
  temperature_c : Option PVal
  latitude : Option PVal
  longitude : Option PVal
  altitude_m : Option PVal
  location_name : Option PVal
  country : Option PVal

/-- Lines 184–218: build the row for one `(dev_id, m)` pair of a
qualifying device.  The fields are those of the row the program builds
when the timestamp conversion (lines 198–204) succeeds; that conversion
sits outside any `try` and raises for epochs beyond `datetime`'s year
range — the raise is modelled by `recordRenderOk` and
`parse_public_data_exc` below. -/
def mkRow (tile_info : TileInfo) (place : List (String × PVal))
    (dev_id : String) (m : DeviceMeasure) : Record :=
  let lt := latestFromRes m.res
  let timestamp_amsterdam : Option Int :=
    match lt.2 with
    | some t => if t = 0 then none else some t
    | none => none
  let location := pyGetD place "location" (.plist [.pnull, .pnull])
  { city_area := tile_info.city
    tile_id := tile_info.id
    device_id := dev_id
    timestamp_amsterdam := timestamp_amsterdam
    temperature_c := lt.1
    latitude := pyIndex location 1
    longitude := pyIndex location 0
    altitude_m := pyGet place "altitude"
    location_name := pyGet place "city"
    country := pyGet place "country" }

/-- The inner `for dev_id, m in measures.items()` loop of one body item:
skip the device when no capability matches, else emit its row. -/
def rowsOfItem (tile_info : TileInfo) (item : Item) : List Record :=
  item.measures.filterMap (fun dm =>
    if dm.2.type.any capMatches then
      some (mkRow tile_info item.place dm.1 dm.2)
    else none)

/-- The `for item in body` loop: all rows, in response order. -/
def rawRows (body : List Item) (tile_info : TileInfo) : List Record :=
  body.bind (rowsOfItem tile_info)

/-- A dataframe cell is missing (for `dropna`) when the Python value is
`None`: either never assigned (`none`) or the JSON null was stored. -/
def isMissing : Option PVal → Bool
  | none => true
  | some .pnull => true
  | some _ => false

/-- `drop_duplicates(subset=[...])` with keep-first semantics: keep an
element when its key has not been seen earlier. -/
def dedupByAux {α β : Type} [BEq β] (key : α → β) : List β → List α → List α
  | _, [] => []
  | seen, x :: xs =>
    if seen.contains (key x) then dedupByAux key seen xs
    else x :: dedupByAux key (key x :: seen) xs

/-- `df.drop_duplicates(subset=[key])` (pandas keeps the first occurrence
of each key by default). -/
def dedupBy {α β : Type} [BEq β] (key : α → β) (l : List α) : List α :=
  dedupByAux key [] l

/-- Lines 169–226, `parse_public_data`: build the rows, then (when the
frame is non-empty) drop duplicate `device_id`s and then drop rows whose
`temperature_c` is missing. -/
def parse_public_data (public_json : PublicJson) (tile_info : TileInfo) :
    List Record :=
  let df := rawRows public_json.body tile_info
  if 0 < df.length then
    ((dedupBy (fun r => r.device_id) df).filter
      (fun r => !(isMissing r.temperature_c)))
  else df

/-- Lines 199–202: `datetime.fromtimestamp(latest_ts, tz=utc)` requires
the epoch to land inside `datetime`'s year range 1–9999
(`-62135596800 ≤ t ≤ 253402300799`), and adding the fixed +1h offset
must stay within `datetime.max` (`t + 3600 ≤ 253402300799`); outside
this the conversion raises, and nothing in `parse_public_data` catches
it. -/
def timestampInRange (t : Int) : Bool :=
  decide (-62135596800 ≤ t ∧ t + 3600 ≤ 253402300799)

/-- Whether building this row's display timestamp raises: the
conversion runs only when `latest_ts` is truthy (`timestamp_amsterdam`
is `some`), and raises exactly when the epoch is out of range. -/
def recordRenderOk (r : Record) : Bool :=
  match r.timestamp_amsterdam with
  | some t => timestampInRange t
  | none => true

/-- `parse_public_data` with its one uncaught exception made explicit:
the row loop raises (aborting the whole tile's frame) as soon as it
builds a row whose timestamp conversion is out of range; otherwise the
result is exactly `parse_public_data`. -/
def parse_public_data_exc (public_json : PublicJson) (tile_info : TileInfo) :
    Except String (List Record) :=
  if (rawRows public_json.body tile_info).all recordRenderOk then
    .ok (parse_public_data public_json tile_info)
  else .error "timestamp out of range"

/-- What the transport delivers to one `requests.post` call in
`get_public_data`: a 2xx response with parseable JSON, or one of the
failure shapes the `try`/`except` distinguishes. -/
inductive FetchOutcome where
  | success (j : PublicJson)
  | httpError (code : Nat)
  | transportError (msg : String)
  | malformedBody (msg : String)

/-- The value `get_public_data` produces from one transport outcome:
a successful response passes through, every failure is converted to the
empty-result sentinel `{"body": []}` (lines 157–166). -/
def fetchResult : FetchOutcome → PublicJson
  | .success j => j
  | _ => PublicJson.mk []

/-- `get_public_data` run against a transcript of outcomes the transport
will deliver to successive requests: it issues exactly one request
(consumes exactly the head of the transcript) and never raises. -/
def get_public_data : List FetchOutcome → PublicJson × List FetchOutcome
  | [] => (PublicJson.mk [], [])
  | o :: rest => (fetchResult o, rest)

/-- Lines 229–238, `download_tile`: an empty `body` short-circuits to an
empty frame, otherwise the response is parsed. -/
def download_tile (o : FetchOutcome) (tile_info : TileInfo) : List Record :=
  let public_json := fetchResult o
  if public_json.body.length = 0 then []
  else parse_public_data public_json tile_info

/-- `download_tile` with the timestamp-conversion exception of its
`parse_public_data` call made explicit (an empty body never reaches the
parser). -/
def download_tile_exc (o : FetchOutcome) (tile_info : TileInfo) :
    Except String (List Record) :=
  let public_json := fetchResult o
  if public_json.body.length = 0 then .ok []
  else parse_public_data_exc public_json tile_info

/-- The mutable state of `main`'s download loop (lines 291–294);
`city_stats` feeds only the printed report and is not modelled. -/
structure LoopState where
  all_data : List (List Record)
  successful_tiles : Nat
  failed_tiles : Nat

/-- One per-tile outcome as the loop body (lines 300–318) observes it.
`raised e`: the tile's processing raised before any frame was produced
(an exception inside `download_tile`, e.g. the uncaught timestamp
conversion).  `fetched df p`: `download_tile` returned the frame `df`;
when `df` is non-empty the source appends it to `all_data` and
increments `successful_tiles` (lines 304–306) BEFORE
`df['temperature_c'].mean()` and the report print run (lines 307–308),
and `p` records whether that later code raised (pandas `mean` raises on
non-numeric temperatures, which `dropna` does not remove) — the
`except` then also counts the same tile as failed, but its appended
frame stays.  In the empty branch only a plain `print` runs, which does
not raise, so `p` is irrelevant there. -/
inductive TileStep where
  | raised (msg : String)
  | fetched (df : List Record) (p : Bool)

/-- One iteration of the loop (lines 296–318). -/
def stepTile (st : LoopState) (r : TileStep) : LoopState :=
  match r with
  | .raised _ => { st with failed_tiles := st.failed_tiles + 1 }
  | .fetched df p =>
    if 0 < df.length then
      let st1 :=
        { st with
          all_data := st.all_data ++ [df],
          successful_tiles := st.successful_tiles + 1 }
      if p then { st1 with failed_tiles := st1.failed_tiles + 1 } else st1
    else st

/-- The whole download loop over the per-tile outcomes, in tile order. -/
def tileLoop (rs : List TileStep) : LoopState :=
  rs.foldl stepTile { all_data := [], successful_tiles := 0, failed_tiles := 0 }

/-- The frames one step leaves in `all_data`. -/
def stepFrames : TileStep → List (List Record)
  | .raised _ => []
  | .fetched df _ => if 0 < df.length then [df] else []

/-- One step's contribution to `successful_tiles`. -/
def stepSucc : TileStep → Nat
  | .raised _ => 0
  | .fetched df _ => if 0 < df.length then 1 else 0

/-- One step's contribution to `failed_tiles`. -/
def stepFailed : TileStep → Nat
  | .raised _ => 1
  | .fetched df p => if 0 < df.length then (if p then 1 else 0) else 0

/-- How a run ends after the loop: `sys.exit(1)` before any file is
written, or the merged dataset handed to `save_data`. -/
inductive RunResult where
  | failure
  | written (ds : List Record)

/-- Lines 323–328: exit in failure when no tile contributed data, else
concatenate (in order) and deduplicate globally by `device_id`. -/
def mergeStage (st : LoopState) : RunResult :=
  if st.all_data.length = 0 then .failure
  else .written (dedupBy (fun r => r.device_id) st.all_data.join)

/-- One tile of `main`'s loop as given to `runMain`: either its
processing raised before the frame was produced from a source outside
the embedded fragment (`raised`, e.g. an interrupt), or fetch and parse
ran (`fetch o t p`), where the parse itself may raise (the timestamp
conversion, via `download_tile_exc`) and `p` is the post-append raise
flag of `TileStep.fetched`. -/
inductive RunStep where
  | raised (msg : String)
  | fetch (o : FetchOutcome) (t : TileInfo) (p : Bool)

/-- How the loop body observes one `RunStep`. -/
def stepOfRun : RunStep → TileStep
  | .raised e => .raised e
  | .fetch o t p =>
    match download_tile_exc o t with
    | .ok df => .fetched df p
    | .error e => .raised e

/-- `main`'s tile pipeline (lines 296–328). -/
def runMain (steps : List RunStep) : RunResult :=
  mergeStage (tileLoop (steps.map stepOfRun))

/-- Floor of a rational: `num` and `den` are coprime with positive
denominator, so the floor is the (Euclidean) division of numerator by
denominator. -/
def ratFloor (q : ℚ) : ℤ := q.num / (q.den : ℤ)

/-- Python's `round(x, 4)`: round to the nearest multiple of `1/10000`,
ties to even (ideal decimal model of the float builtin; exact on the
values the claims exercise). -/
def round4 (q : ℚ) : ℚ :=
  let x := q * 10000
  let f : ℤ := ratFloor x
  let r : ℤ :=
    if x - (f : ℚ) < 1 / 2 then f
    else if 1 / 2 < x - (f : ℚ) then f + 1
    else if f % 2 = 0 then f else f + 1
  (r : ℚ) / 10000

/-- The `bounds` dict computed at lines 109–114 of
`generate_city_tiles`.  (The source derives it from a city's
center/radius via `km_to_degrees`, whose `math.cos` is transcendental;
the partitioning claims quantify over the resulting bounding box, so the
grid construction is embedded over an arbitrary box.) -/
structure Bounds where
  lat_max : ℚ
  lat_min : ℚ
  lon_max : ℚ
  lon_min : ℚ
deriving DecidableEq

/-- One tile dict as appended at lines 130–139. -/
structure Tile where
  id : String
  city : String
  row : Nat
  col : Nat
  lat_ne : ℚ
  lon_ne : ℚ
  lat_sw : ℚ
  lon_sw : ℚ
deriving DecidableEq

/-- Lines 116–142 of `generate_city_tiles`: the row-major
(north-to-south, then west-to-east) grid over `bounds`.  The source's
running counter `tile_id` starts at 1 and increments once per emitted
tile, hence equals `row * num_cols + col + 1`. -/
def generate_tiles (name : String) (bounds : Bounds)
    (num_rows num_cols : Nat) : List Tile :=
  let lat_step := (bounds.lat_max - bounds.lat_min) / (num_rows : ℚ)
  let lon_step := (bounds.lon_max - bounds.lon_min) / (num_cols : ℚ)
  (List.range num_rows).bind (fun (row : Nat) =>
    let lat_ne := bounds.lat_max - (row : ℚ) * lat_step
    let lat_sw := lat_ne - lat_step
    (List.range num_cols).map (fun (col : Nat) =>
      let lon_sw := bounds.lon_min + (col : ℚ) * lon_step
      let lon_ne := lon_sw + lon_step
      { id := name ++ "_T" ++ toString (row * num_cols + col + 1)
        city := name
        row := row
        col := col
        lat_ne := round4 lat_ne
        lon_ne := round4 lon_ne
        lat_sw := round4 lat_sw
        lon_sw := round4 lon_sw }))

/-- Two tiles do not overlap: their closed rectangles meet in at most a
shared boundary edge (interiors disjoint). -/
def tileDisjoint (t u : Tile) : Prop :=
  t.lat_ne ≤ u.lat_sw ∨ u.lat_ne ≤ t.lat_sw ∨
  t.lon_ne ≤ u.lon_sw ∨ u.lon_ne ≤ t.lon_sw

/-- A point lies in a tile's closed rectangle. -/
def inTile (t : Tile) (la lo : ℚ) : Prop :=
  t.lat_sw ≤ la ∧ la ≤ t.lat_ne ∧ t.lon_sw ≤ lo ∧ lo ≤ t.lon_ne

section DedupLemmas

variable {α β : Type} [BEq β] [LawfulBEq β] (key : α → β)

theorem dedupByAux_sublist (seen : List β) (l : List α) :
    List.Sublist (dedupByAux key seen l) l := by
  induction l generalizing seen with
  | nil => simp [dedupByAux]
  | cons x xs ih =>
    simp only [dedupByAux]
    split
    · exact (ih seen).trans (List.sublist_cons_self x xs)
    · exact List.Sublist.cons₂ x (ih _)

theorem mem_of_mem_dedupByAux {seen : List β} {l : List α} {x : α}
    (hx : x ∈ dedupByAux key seen l) : x ∈ l :=
  (dedupByAux_sublist key seen l).subset hx

theorem key_not_seen_of_mem_dedupByAux {seen : List β} {l : List α} {x : α}
    (hx : x ∈ dedupByAux key seen l) : key x ∉ seen := by
  induction l generalizing seen with
  | nil => simp [dedupByAux] at hx
  | cons y ys ih =>
    simp only [dedupByAux] at hx
    split at hx
    · exact ih hx
    · rename_i hns
      rcases List.mem_cons.mp hx with rfl | hx'
      · simpa [List.elem_iff] using hns
      · have h2 := ih hx'
        intro hc
        exact h2 (List.mem_cons_of_mem _ hc)

theorem pairwise_key_dedupByAux (seen : List β) (l : List α) :
    (dedupByAux key seen l).Pairwise (fun a b => key a ≠ key b) := by
  induction l generalizing seen with
  | nil => simp [dedupByAux]
  | cons y ys ih =>
    simp only [dedupByAux]
    split
    · exact ih seen
    · refine List.Pairwise.cons ?_ (ih _)
      intro b hb
      have := key_not_seen_of_mem_dedupByAux key hb
      intro he
      exact this (by simp [he])

theorem pairwise_key_dedupBy (l : List α) :
    (dedupBy key l).Pairwise (fun a b => key a ≠ key b) :=
  pairwise_key_dedupByAux key [] l

theorem filter_dedupByAux_eq_nil {seen : List β} {l : List α} {d : β}
    (hd : d ∈ seen) :
    (dedupByAux key seen l).filter (fun x => key x == d) = [] := by
  rw [List.filter_eq_nil]
  intro a ha
  have := key_not_seen_of_mem_dedupByAux key ha
  simp only [beq_iff_eq]
  intro he
  exact this (he ▸ hd)

theorem filter_dedupByAux {seen : List β} {l : List α} {d : β}
    (hd : d ∉ seen) :
    (dedupByAux key seen l).filter (fun x => key x == d) =
      (l.find? (fun x => key x == d)).toList := by
  induction l generalizing seen with
  | nil => simp [dedupByAux]
  | cons y ys ih =>
    simp only [dedupByAux]
    split
    · rename_i hseen
      have hkyd : (key y == d) = false := by
        simp only [beq_eq_false_iff_ne]
        intro he
        exact hd (he ▸ (List.elem_iff.mp hseen))
      rw [List.find?_cons_of_neg _ (by simp [hkyd]), ih hd]
    · by_cases hkd : key y = d
      · rw [List.filter_cons_of_pos (by simp [hkd]),
          List.find?_cons_of_pos _ (by simp [hkd]),
          filter_dedupByAux_eq_nil key (by simp [hkd])]
        rfl
      · rw [List.filter_cons_of_neg (by simp [hkd]),
          List.find?_cons_of_neg _ (by simp [hkd])]
        exact ih (by simp [hd, Ne.symm hkd])

theorem filter_dedupBy (l : List α) (d : β) :
    (dedupBy key l).filter (fun x => key x == d) =
      (l.find? (fun x => key x == d)).toList :=
  filter_dedupByAux key (List.not_mem_nil d)

theorem find?_dedupByAux {seen : List β} {l : List α} {d : β}
    (hd : d ∉ seen) :
    (dedupByAux key seen l).find? (fun x => key x == d) =
      l.find? (fun x => key x == d) := by
  induction l generalizing seen with
  | nil => simp [dedupByAux]
  | cons y ys ih =>
    simp only [dedupByAux]
    split
    · rename_i hseen
      have hkyd : (key y == d) = false := by
        simp only [beq_eq_false_iff_ne]
        intro he
        exact hd (he ▸ (List.elem_iff.mp hseen))
      rw [List.find?_cons_of_neg _ (by simp [hkyd])]
      exact ih hd
    · by_cases hkd : key y = d
      · rw [List.find?_cons_of_pos _ (by simp [hkd]),
          List.find?_cons_of_pos _ (by simp [hkd])]
      · rw [List.find?_cons_of_neg _ (by simp [hkd]),
          List.find?_cons_of_neg _ (by simp [hkd])]
        exact ih (by simp [hd, Ne.symm hkd])

theorem find?_dedupBy (l : List α) (d : β) :
    (dedupBy key l).find? (fun x => key x == d) =
      l.find? (fun x => key x == d) :=
  find?_dedupByAux key (List.not_mem_nil d)

end DedupLemmas

theorem parse_public_data_eq (pj : PublicJson) (t : TileInfo) :
    parse_public_data pj t =
      (dedupBy (fun r => r.device_id) (rawRows pj.body t)).filter
        (fun r => !(isMissing r.temperature_c)) := by
  unfold parse_public_data
  cases h : rawRows pj.body t with
  | nil => simp [dedupBy, dedupByAux]
  | cons a l => simp

theorem not_missing_of_mem_parse {pj : PublicJson} {t : TileInfo} {r : Record}
    (hr : r ∈ parse_public_data pj t) : isMissing r.temperature_c = false := by
  rw [parse_public_data_eq] at hr
  have := (List.mem_filter.mp hr).2
  simpa using this

theorem mem_rawRows {body : List Item} {t : TileInfo} {r : Record}
    (hr : r ∈ rawRows body t) :
    ∃ item ∈ body, ∃ m : DeviceMeasure,
      (r.device_id, m) ∈ item.measures ∧ m.type.any capMatches = true ∧
      r = mkRow t item.place r.device_id m := by
  rw [rawRows, List.mem_bind] at hr
  obtain ⟨item, hitem, hr⟩ := hr
  rw [rowsOfItem, List.mem_filterMap] at hr
  obtain ⟨dm, hdm, heq⟩ := hr
  by_cases hcap : dm.2.type.any capMatches
  · rw [if_pos hcap] at heq
    obtain rfl : r = mkRow t item.place dm.1 dm.2 := (Option.some.inj heq).symm
    have hdev : (mkRow t item.place dm.1 dm.2).device_id = dm.1 := rfl
    refine ⟨item, hitem, dm.2, ?_, hcap, ?_⟩
    · rw [hdev]
      exact hdm
    · rw [hdev]
  · rw [if_neg hcap] at heq
    cases heq

theorem foldl_stepTile_char (xs : List TileStep) (st : LoopState) :
    xs.foldl stepTile st =
      { all_data := st.all_data ++ xs.flatMap stepFrames,
        successful_tiles := st.successful_tiles + (xs.map stepSucc).sum,
        failed_tiles := st.failed_tiles + (xs.map stepFailed).sum } := by
  induction xs generalizing st with
  | nil => simp
  | cons x xs ih =>
    rw [List.foldl_cons, ih]
    cases x with
    | raised e =>
      simp [stepTile, stepFrames, stepSucc, stepFailed, LoopState.mk.injEq,
        Nat.add_assoc, Nat.add_comm, Nat.add_left_comm]
    | fetched df p =>
      by_cases h : 0 < df.length <;> cases p <;>
        simp [stepTile, stepFrames, stepSucc, stepFailed, h,
          LoopState.mk.injEq, List.append_assoc,
          Nat.add_assoc, Nat.add_comm, Nat.add_left_comm]

theorem tileLoop_char (xs : List TileStep) :
    tileLoop xs =
      { all_data := xs.flatMap stepFrames,
        successful_tiles := (xs.map stepSucc).sum,
        failed_tiles := (xs.map stepFailed).sum } := by
  rw [tileLoop, foldl_stepTile_char]
  simp

theorem tileLoop_all_data (xs : List TileStep) :
    (tileLoop xs).all_data = xs.flatMap stepFrames := by
  rw [tileLoop_char]

theorem tileLoop_succ (xs : List TileStep) :
    (tileLoop xs).successful_tiles = (xs.map stepSucc).sum := by
  rw [tileLoop_char]

theorem tileLoop_failed (xs : List TileStep) :
    (tileLoop xs).failed_tiles = (xs.map stepFailed).sum := by
  rw [tileLoop_char]

theorem flatMap_fetched_frames (dfs : List (List Record)) (p : Bool) :
    ((dfs.map (fun df => TileStep.fetched df p)).flatMap stepFrames) =
      dfs.filter (fun l => 0 < l.length) := by
  induction dfs with
  | nil => rfl
  | cons df dfs ih =>
    by_cases h : 0 < df.length
    · rw [List.map_cons, List.flatMap_cons, ih,
        List.filter_cons_of_pos (by simpa using h)]
      simp [stepFrames, h]
    · rw [List.map_cons, List.flatMap_cons, ih,
        List.filter_cons_of_neg (by simpa using h)]
      simp [stepFrames, h]

theorem flatMap_frames_eq_nil {xs : List TileStep}
    (h : ∀ x ∈ xs, stepFrames x = []) : xs.flatMap stepFrames = [] := by
  induction xs with
  | nil => rfl
  | cons x xs ih =>
    rw [List.flatMap_cons, h x (List.mem_cons_self _ _),
      ih (fun y hy => h y (List.mem_cons_of_mem _ hy)), List.nil_append]

theorem mem_stepFrames {x : TileStep} {l : List Record}
    (h : l ∈ stepFrames x) : ∃ df p, x = TileStep.fetched df p ∧ l = df := by
  cases x with
  | raised e => cases h
  | fetched df p =>
    simp only [stepFrames] at h
    split at h
    · rcases List.mem_singleton.mp h with rfl
      exact ⟨l, p, rfl, rfl⟩
    · cases h

theorem download_tile_exc_ok {o : FetchOutcome} {t : TileInfo}
    {df : List Record} (h : download_tile_exc o t = Except.ok df) :
    df = [] ∨ df = parse_public_data (fetchResult o) t := by
  rw [download_tile_exc] at h
  split at h
  · exact Or.inl (Except.ok.inj h).symm
  · rw [parse_public_data_exc] at h
    split at h
    · exact Or.inr (Except.ok.inj h).symm
    · cases h

theorem le_foldl_max (l : List Int) (a : Int) : a ≤ l.foldl max a := by
  induction l generalizing a with
  | nil => exact le_refl a
  | cons x xs ih => exact le_trans (le_max_left a x) (ih _)

theorem mem_le_foldl_max {l : List Int} {x : Int} (a : Int) (hx : x ∈ l) :
    x ≤ l.foldl max a := by
  induction l generalizing a with
  | nil => cases hx
  | cons y ys ih =>
    rcases List.mem_cons.mp hx with rfl | hx'
    · exact le_trans (le_max_right a x) (le_foldl_max ys _)
    · exact ih _ hx'

theorem foldl_max_le {l : List Int} {a n : Int} (ha : a ≤ n)
    (hl : ∀ x ∈ l, x ≤ n) : l.foldl max a ≤ n := by
  induction l generalizing a with
  | nil => exact ha
  | cons y ys ih =>
    simp only [List.foldl_cons]
    exact ih (max_le ha (hl y (List.mem_cons_self _ _)))
      (fun x hx => hl x (List.mem_cons_of_mem _ hx))

theorem maxIntList_eq {ks : List Int} {n : Int} (hmem : n ∈ ks)
    (hub : ∀ m ∈ ks, m ≤ n) : maxIntList ks = some n := by
  cases ks with
  | nil => cases hmem
  | cons k rest =>
    simp only [maxIntList, Option.some.injEq]
    refine le_antisymm
      (foldl_max_le (hub k (List.mem_cons_self _ _))
        (fun x hx => hub x (List.mem_cons_of_mem _ hx))) ?_
    rcases List.mem_cons.mp hmem with rfl | hmem'
    · exact le_foldl_max rest n
    · exact mem_le_foldl_max k hmem'

theorem parseKeys_some {d : List (String × PVal)}
    (h : ∀ kv ∈ d, ∃ m : Int, pyInt? kv.1 = some m) :
    ∃ ks, parseKeys d = some ks := by
  induction d with
  | nil => exact ⟨[], rfl⟩
  | cons kv rest ih =>
    obtain ⟨m, hm⟩ := h kv (List.mem_cons_self _ _)
    obtain ⟨ks, hks⟩ := ih (fun kv' h' => h kv' (List.mem_cons_of_mem _ h'))
    exact ⟨m :: ks, by simp [parseKeys, hm, hks]⟩

theorem parseKeys_mem {d : List (String × PVal)} {ks : List Int}
    (h : parseKeys d = some ks) :
    (∀ kv ∈ d, ∀ m : Int, pyInt? kv.1 = some m → m ∈ ks) ∧
    (∀ m ∈ ks, ∃ kv ∈ d, pyInt? kv.1 = some m) := by
  induction d generalizing ks with
  | nil =>
    simp only [parseKeys, Option.some.injEq] at h
    subst h
    exact ⟨fun kv h' => absurd h' (List.not_mem_nil kv), fun m h' => absurd h' (List.not_mem_nil m)⟩
  | cons kv rest ih =>
    simp only [parseKeys] at h
    rcases h1 : pyInt? kv.1 with _ | n <;> rw [h1] at h
    · cases h
    · rcases h2 : parseKeys rest with _ | ns <;> rw [h2] at h
      · cases h
      · obtain rfl : n :: ns = ks := Option.some.inj h
        obtain ⟨ihf, ihb⟩ := ih h2
        constructor
        · intro kv' hkv' m hm
          rcases List.mem_cons.mp hkv' with rfl | hkv''
          · rw [h1] at hm
            rcases Option.some.inj hm with rfl
            exact List.mem_cons_self _ _
          · exact List.mem_cons_of_mem _ (ihf kv' hkv'' m hm)
        · intro m hm
          rcases List.mem_cons.mp hm with rfl | hm'
          · exact ⟨kv, List.mem_cons_self _ _, h1⟩
          · obtain ⟨kv', hkv', hp⟩ := ihb m hm'
            exact ⟨kv', List.mem_cons_of_mem _ hkv', hp⟩

theorem parseKeys_none {d : List (String × PVal)} {kv : String × PVal}
    (hkv : kv ∈ d) (hbad : pyInt? kv.1 = none) : parseKeys d = none := by
  induction d with
  | nil => cases hkv
  | cons kv' rest ih =>
    rcases List.mem_cons.mp hkv with rfl | h'
    · simp [parseKeys, hbad]
    · simp only [parseKeys, ih h']
      rcases pyInt? kv'.1 with _ | n <;> rfl

theorem digitVal_isDigit {c : Char} {v : Nat} (h : digitVal c = some v) :
    c.isDigit = true := by
  rw [digitVal] at h
  split at h
  · assumption
  · cases h

theorem digitsTail_chars {cs : List Char} {flag : Bool} {acc v : Nat}
    (h : digitsTail cs flag acc = some v) :
    ∀ c ∈ cs, (c.isDigit || c == '_') = true := by
  induction cs generalizing flag acc with
  | nil =>
    intro c hc
    cases hc
  | cons c0 cs ih =>
    intro c hc
    simp only [digitsTail] at h
    split at h
    · rename_i h0
      split at h
      · cases h
      · rcases List.mem_cons.mp hc with rfl | hc'
        · simp [h0]
        · exact ih h c hc'
    · rcases hdv : digitVal c0 with _ | v0 <;> rw [hdv] at h
      · cases h
      · rcases List.mem_cons.mp hc with rfl | hc'
        · simp [digitVal_isDigit hdv]
        · exact ih h c hc'

theorem parseDigits_chars {cs : List Char} {v : Nat}
    (h : parseDigits cs = some v) :
    ∀ c ∈ cs, (c.isDigit || c == '_') = true := by
  cases cs with
  | nil =>
    intro c hc
    cases hc
  | cons c0 cs =>
    intro c hc
    simp only [parseDigits] at h
    rcases hdv : digitVal c0 with _ | v0 <;> rw [hdv] at h
    · cases h
    · rcases List.mem_cons.mp hc with rfl | hc'
      · simp [digitVal_isDigit hdv]
      · exact digitsTail_chars h c hc'

theorem pyWhite_of_not_mem_trimWhite {cs : List Char} {c : Char}
    (hc : c ∈ cs) (hnot : c ∉ trimWhite cs) : pyWhite c = true := by
  have hc1 : c ∈ cs.takeWhile pyWhite ++ cs.dropWhile pyWhite := by
    rw [List.takeWhile_append_dropWhile]
    exact hc
  rcases List.mem_append.mp hc1 with h | h
  · exact List.mem_takeWhile_imp h
  · have hc2 : c ∈ (cs.dropWhile pyWhite).reverse.takeWhile pyWhite ++
        (cs.dropWhile pyWhite).reverse.dropWhile pyWhite := by
      rw [List.takeWhile_append_dropWhile]
      exact List.mem_reverse.mpr h
    rcases List.mem_append.mp hc2 with h' | h'
    · exact List.mem_takeWhile_imp h'
    · exact absurd (List.mem_reverse.mpr h') hnot

theorem pyIntChar_of_digitish {c : Char}
    (h : (c.isDigit || c == '_') = true) : pyIntChar c = true := by
  rw [pyIntChar]
  rcases (by simpa using h : c.isDigit = true ∨ c = '_') with h' | h' <;>
    simp [h']

theorem pyInt?_chars {s : String} {m : Int} (h : pyInt? s = some m) :
    ∀ c ∈ s.data, pyIntChar c = true := by
  intro c hc
  by_cases hmem : c ∈ trimWhite s.data
  · rw [pyInt?] at h
    rcases ht : trimWhite s.data with _ | ⟨c0, rest⟩ <;> rw [ht] at h <;>
      rw [ht] at hmem
    · cases hmem
    · simp only [pyIntCore] at h
      split at h
      · rename_i hsign
        rcases hv : parseDigits rest with _ | v
        · rw [hv] at h
          simp at h
        · rcases List.mem_cons.mp hmem with rfl | hc'
          · simp [pyIntChar, hsign]
          · exact pyIntChar_of_digitish (parseDigits_chars hv c hc')
      · split at h
        · rename_i hsign
          rcases hv : parseDigits rest with _ | v
          · rw [hv] at h
            simp at h
          · rcases List.mem_cons.mp hmem with rfl | hc'
            · simp [pyIntChar, hsign]
            · exact pyIntChar_of_digitish (parseDigits_chars hv c hc')
        · rcases hv : parseDigits (c0 :: rest) with _ | v
          · rw [hv] at h
            simp at h
          · exact pyIntChar_of_digitish (parseDigits_chars hv c hmem)
  · have hw := pyWhite_of_not_mem_trimWhite hc hmem
    simp [pyIntChar, hw]

theorem pyInt?_eq_none_of_bad {s : String} {c : Char} (hc : c ∈ s.data)
    (hbad : pyIntChar c = false) : pyInt? s = none := by
  cases h : pyInt? s with
  | none => rfl
  | some m => exact absurd (pyInt?_chars h c hc) (by simp [hbad])

theorem latestFromRes_reduce (d : List (String × PVal)) (n : Int)
    (hall : ∀ kv ∈ d, ∃ m : Int, pyInt? kv.1 = some m)
    (hmem : ∃ kv ∈ d, pyInt? kv.1 = some n)
    (hmax : ∀ kv ∈ d, ∀ m : Int, pyInt? kv.1 = some m → m ≤ n) :
    latestFromRes (some (.pdict d)) =
      match pyOr (pyGet d (toString n)) (pyGetInt d n) with
      | some (.plist l) =>
        if 0 < l.length then (l.head?, some n) else (none, none)
      | _ => (none, none) := by
  obtain ⟨kv0, hkv0, hn0⟩ := hmem
  have hlen : 0 < d.length := List.length_pos.mpr (fun h => by simp [h] at hkv0)
  obtain ⟨ks, hks⟩ := parseKeys_some hall
  obtain ⟨hfwd, hbwd⟩ := parseKeys_mem hks
  have hmaxeq : maxIntList ks = some n := by
    refine maxIntList_eq (hfwd kv0 hkv0 n hn0) ?_
    intro m hm
    obtain ⟨kv, hkv, hp⟩ := hbwd m hm
    exact hmax kv hkv m hp
  simp only [latestFromRes, if_pos hlen, hks, hmaxeq]

/-- **C3** (amended).  For a qualifying device whose time-series `res`
is a non-empty mapping in which every key is numeric (accepted by
`int()`: optional surrounding whitespace, an optional sign, a decimal
digit run with `_` separators), the numerically greatest key is written
canonically (`str(int(key)) == key`) and maps to a non-empty list, the
Normalizer takes that list's first element as the temperature and the
key as the timestamp; the claim's own example
`{"100": [10.0], "200": [12.5]}` yields `(12.5, 200)`, and
`{"+7": [2.0], "7": [1.0]}` yields `(1.0, 7)` — the greatest key is 7
and the lookup `res.get(str(7))` finds the canonical spelling `"7"`.
If the time-series is absent, empty, or malformed — any key containing
a character `int()` rejects (an ASCII character that is not a digit,
sign, underscore or whitespace), or a greatest-key value that is not a
non-empty list — temperature and timestamp are left unset, and no
exception escapes (`latestFromRes` is a total function). -/
theorem C3_latest_reading (d : List (String × PVal)) (n : Int) (l : List PVal)
    (hall : ∀ kv ∈ d, ∃ m : Int, pyInt? kv.1 = some m)
    (hmem : ∃ kv ∈ d, pyInt? kv.1 = some n)
    (hmax : ∀ kv ∈ d, ∀ m : Int, pyInt? kv.1 = some m → m ≤ n)
    (hget : pyGet d (toString n) = some (.plist l))
    (hl : l ≠ []) :
    latestFromRes (some (.pdict d)) = (l.head?, some n) ∧
    latestFromRes none = (none, none) ∧
    latestFromRes (some (.pdict [])) = (none, none) ∧
    (∀ (d' : List (String × PVal)) (kv : String × PVal), kv ∈ d' →
      (∃ c ∈ kv.1.data, c.toNat < 128 ∧ pyIntChar c = false) →
      latestFromRes (some (.pdict d')) = (none, none)) ∧
    (∀ (d' : List (String × PVal)) (n' : Int) (v : PVal),
      (∀ kv ∈ d', ∃ m : Int, pyInt? kv.1 = some m) →
      (∃ kv ∈ d', pyInt? kv.1 = some n') →
      (∀ kv ∈ d', ∀ m : Int, pyInt? kv.1 = some m → m ≤ n') →
      pyGet d' (toString n') = some v →
      (∀ l' : List PVal, v = .plist l' → l' = []) →
      latestFromRes (some (.pdict d')) = (none, none)) ∧
    latestFromRes (some (.pdict [("100", .plist [.pnum 10]),
      ("200", .plist [.pnum (25/2)])])) =
      (some (.pnum (25/2)), some 200) ∧
    latestFromRes (some (.pdict [("+7", .plist [.pnum 2]),
      ("7", .plist [.pnum 1])])) = (some (.pnum 1), some 7) := by
  refine ⟨?_, rfl, rfl, ?_, ?_, rfl, rfl⟩
  · rw [latestFromRes_reduce d n hall hmem hmax, hget]
    have htr : isTruthy (.plist l) = true := by
      simp [isTruthy, hl]
    simp only [pyOr, if_pos htr]
    rw [if_pos (List.length_pos.mpr hl)]
  · rintro d' kv hkv ⟨c, hcmem, -, hbad⟩
    have hnone : pyInt? kv.1 = none := pyInt?_eq_none_of_bad hcmem hbad
    have hlen : 0 < d'.length := List.length_pos.mpr (fun h => by simp [h] at hkv)
    simp only [latestFromRes, if_pos hlen, parseKeys_none hkv hnone]
  · intro d' n' v hall' hmem' hmax' hget' hv
    rw [latestFromRes_reduce d' n' hall' hmem' hmax', hget']
    simp only [pyOr]
    by_cases htr : isTruthy v = true
    · rw [if_pos htr]
      cases v with
      | plist l' =>
        have : l' = [] := hv l' rfl
        subst this
        simp [isTruthy] at htr
      | pnum q => rfl
      | pstr s => rfl
      | pnull => rfl
      | pdict dd => rfl
    · rw [if_neg htr]
      rfl

/-- **C3** counterexample.  The time-series `{"007": [1.0]}` has only
numeric keys (`int("007")` is `7`) and a non-empty list value, yet the
code leaves temperature and timestamp unset: `max` yields `7`, and the
lookup `res.get(str(7))`, i.e. `res.get("7")`, misses the key `"007"`
(as does the integer-key fallback `res.get(7)`), so the claimed result
`(1.0, 7)` is not produced. -/
theorem C3_counterexample :
    latestFromRes (some (.pdict [("007", .plist [.pnum 1])])) =
      (none, none) ∧
    ((none, none) : Option PVal × Option Int) ≠ (some (.pnum 1), some 7) := by
  refine ⟨rfl, fun h => ?_⟩
  exact Option.noConfusion (congrArg Prod.snd h)

/-- **C3** witness: the amended theorem applied to the claim's example
`{"100": [10.0], "200": [12.5]}`. -/
theorem C3_witness :
    latestFromRes (some (.pdict [("100", .plist [.pnum 10]),
      ("200", .plist [.pnum (25/2)])])) = (some (.pnum (25/2)), some 200) :=
  (C3_latest_reading
    [("100", .plist [.pnum 10]), ("200", .plist [.pnum (25/2)])]
    200 [.pnum (25/2)]
    (by
      intro kv hkv
      rcases List.mem_cons.mp hkv with rfl | hkv'
      · exact ⟨100, rfl⟩
      · rcases List.mem_cons.mp hkv' with rfl | h
        · exact ⟨200, rfl⟩
        · cases h)
    ⟨("200", .plist [.pnum (25/2)]),
      List.mem_cons_of_mem _ (List.mem_cons_self _ _), rfl⟩
    (by
      intro kv hkv m hm
      rcases List.mem_cons.mp hkv with rfl | hkv'
      · rw [show pyInt? "100" = some 100 from rfl] at hm
        injection hm with h
        omega
      · rcases List.mem_cons.mp hkv' with rfl | h
        · rw [show pyInt? "200" = some 200 from rfl] at hm
          injection hm with h
          omega
        · cases h)
    rfl
    (List.cons_ne_nil _ _)).1

/-- **C4** (amended).  For a raw response containing two (or more)
device entries sharing the same `device_id`, the Normalizer emits at
most one record for that id; it emits exactly one — the first
occurrence — when that first occurrence carries a temperature AND no
row's display-timestamp conversion is out of `datetime`'s range (the
conversion at lines 199–204 is outside the `try` and an out-of-range
epoch makes `parse_public_data` raise, so the tile then yields zero
records).  As frozen, the claim fails in two ways: a temperature-less
first occurrence (duplicates are dropped before missing-temperature
rows, see C5), and an out-of-range timestamp on a
temperature-carrying first occurrence; see the counterexample. -/
theorem C4_dedup_first (pj : PublicJson) (t : TileInfo) (d : String)
    (r : Record)
    (h2 : 2 ≤ ((rawRows pj.body t).filter
      (fun x => x.device_id == d)).length)
    (hf : (rawRows pj.body t).find? (fun x => x.device_id == d) = some r)
    (ht : isMissing r.temperature_c = false)
    (hok : (rawRows pj.body t).all recordRenderOk = true) :
    parse_public_data_exc pj t = Except.ok (parse_public_data pj t) ∧
    (parse_public_data pj t).filter (fun x => x.device_id == d) = [r] := by
  refine ⟨by rw [parse_public_data_exc, if_pos hok], ?_⟩
  have h2' : 0 < ((rawRows pj.body t).filter
      (fun x => x.device_id == d)).length := by omega
  rw [parse_public_data_eq, List.filter_comm,
    filter_dedupBy (fun r => r.device_id) (rawRows pj.body t) d, hf]
  have hr : (fun x => !(isMissing x.temperature_c)) r = true := by
    simp [ht]
  simp [Option.toList, List.filter_cons_of_pos hr, ht]

/-- **C4** counterexample, both failure modes of the frozen claim.
First: two entries for device `"d"`, the first qualifying but with no
`res` (hence no temperature), the second carrying temperature `12.5` —
two raw rows for `"d"` yet zero output records (`drop_duplicates` keeps
the temperature-less first row and `dropna` then deletes it).  Second:
two entries for `"d"` whose first DOES carry a temperature but under
timestamp key `9999999999999`, beyond `datetime`'s year range — the
conversion raises and the tile yields zero records instead of the
claimed exactly one. -/
theorem C4_counterexample :
    ((rawRows
      [⟨[], [("d", ⟨[.pstr "temperature"], none⟩)]⟩,
       ⟨[], [("d", ⟨[.pstr "temperature"],
          some (.pdict [("200", .plist [.pnum (25/2)])])⟩)]⟩]
      ⟨"City_T1", "City"⟩).filter (fun x => x.device_id == "d")).length
        = 2 ∧
    (parse_public_data
      ⟨[⟨[], [("d", ⟨[.pstr "temperature"], none⟩)]⟩,
        ⟨[], [("d", ⟨[.pstr "temperature"],
           some (.pdict [("200", .plist [.pnum (25/2)])])⟩)]⟩]⟩
      ⟨"City_T1", "City"⟩).filter (fun x => x.device_id == "d") = [] ∧
    ((rawRows
      [⟨[], [("d", ⟨[.pstr "temperature"],
          some (.pdict [("9999999999999", .plist [.pnum (25/2)])])⟩)]⟩,
       ⟨[], [("d", ⟨[.pstr "temperature"],
          some (.pdict [("100", .plist [.pnum 10])])⟩)]⟩]
      ⟨"City_T1", "City"⟩).filter (fun x => x.device_id == "d")).length
        = 2 ∧
    ((rawRows
      [⟨[], [("d", ⟨[.pstr "temperature"],
          some (.pdict [("9999999999999", .plist [.pnum (25/2)])])⟩)]⟩,
       ⟨[], [("d", ⟨[.pstr "temperature"],
          some (.pdict [("100", .plist [.pnum 10])])⟩)]⟩]
      ⟨"City_T1", "City"⟩).find? (fun x => x.device_id == "d")).map
        (fun x => isMissing x.temperature_c) = some false ∧
    parse_public_data_exc
      ⟨[⟨[], [("d", ⟨[.pstr "temperature"],
          some (.pdict [("9999999999999", .plist [.pnum (25/2)])])⟩)]⟩,
        ⟨[], [("d", ⟨[.pstr "temperature"],
           some (.pdict [("100", .plist [.pnum 10])])⟩)]⟩]⟩
      ⟨"City_T1", "City"⟩ = Except.error "timestamp out of range" :=
  ⟨rfl, rfl, rfl, rfl, rfl⟩

/-- **C4** witness: two entries for device `"d"`, the first with
temperature `10.0` at timestamp `100`, the second with `12.5`; the
parse does not raise and exactly the first row is retained. -/
theorem C4_witness :
    (parse_public_data
      ⟨[⟨[], [("d", ⟨[.pstr "temperature"],
          some (.pdict [("100", .plist [.pnum 10])])⟩)]⟩,
        ⟨[], [("d", ⟨[.pstr "temperature"],
          some (.pdict [("200", .plist [.pnum (25/2)])])⟩)]⟩]⟩
      ⟨"City_T1", "City"⟩).filter (fun x => x.device_id == "d") =
    [{ city_area := "City", tile_id := "City_T1", device_id := "d",
       timestamp_amsterdam := some 100, temperature_c := some (.pnum 10),
       latitude := some .pnull, longitude := some .pnull,
       altitude_m := none, location_name := none, country := none }] :=
  (C4_dedup_first
    ⟨[⟨[], [("d", ⟨[.pstr "temperature"],
        some (.pdict [("100", .plist [.pnum 10])])⟩)]⟩,
      ⟨[], [("d", ⟨[.pstr "temperature"],
        some (.pdict [("200", .plist [.pnum (25/2)])])⟩)]⟩]⟩
    ⟨"City_T1", "City"⟩ "d"
    { city_area := "City", tile_id := "City_T1", device_id := "d",
      timestamp_amsterdam := some 100, temperature_c := some (.pnum 10),
      latitude := some .pnull, longitude := some .pnull,
      altitude_m := none, location_name := none, country := none }
    (by decide) rfl rfl rfl).2

/-- **C5**.  The Normalizer drops duplicate `device_id` rows before
dropping rows lacking a temperature: when the first raw row for a device
has a missing temperature, the device is entirely absent from the
output — even when a later raw row for the same device carries a valid
temperature. -/
theorem C5_first_missing_drops_device (pj : PublicJson) (t : TileInfo)
    (d : String) (r r' : Record)
    (hf : (rawRows pj.body t).find? (fun x => x.device_id == d) = some r)
    (hmiss : isMissing r.temperature_c = true)
    (hr' : r' ∈ rawRows pj.body t)
    (hd' : r'.device_id = d)
    (ht' : isMissing r'.temperature_c = false) :
    (parse_public_data pj t).filter (fun x => x.device_id == d) = [] := by
  rw [parse_public_data_eq, List.filter_comm,
    filter_dedupBy (fun r => r.device_id) (rawRows pj.body t) d, hf]
  simp [Option.toList, List.filter_cons_of_neg, hmiss]

/-- **C5** witness: the same two-entry response as the C4 counterexample
(first entry for `"d"` temperature-less, second with `12.5`) yields zero
records for `"d"`. -/
theorem C5_witness :
    (parse_public_data
      ⟨[⟨[], [("d", ⟨[.pstr "temperature"], none⟩)]⟩,
        ⟨[], [("d", ⟨[.pstr "temperature"],
           some (.pdict [("200", .plist [.pnum (25/2)])])⟩)]⟩]⟩
      ⟨"City_T1", "City"⟩).filter (fun x => x.device_id == "d") = [] :=
  C5_first_missing_drops_device _ ⟨"City_T1", "City"⟩ "d"
    { city_area := "City", tile_id := "City_T1", device_id := "d",
      timestamp_amsterdam := none, temperature_c := none,
      latitude := some .pnull, longitude := some .pnull,
      altitude_m := none, location_name := none, country := none }
    { city_area := "City", tile_id := "City_T1", device_id := "d",
      timestamp_amsterdam := some 200, temperature_c := some (.pnum (25/2)),
      latitude := some .pnull, longitude := some .pnull,
      altitude_m := none, location_name := none, country := none }
    rfl rfl
    (by
      rw [show rawRows
        [⟨[], [("d", ⟨[.pstr "temperature"], none⟩)]⟩,
         ⟨[], [("d", ⟨[.pstr "temperature"],
            some (.pdict [("200", .plist [.pnum (25/2)])])⟩)]⟩]
        ⟨"City_T1", "City"⟩ =
        [{ city_area := "City", tile_id := "City_T1", device_id := "d",
           timestamp_amsterdam := none, temperature_c := none,
           latitude := some .pnull, longitude := some .pnull,
           altitude_m := none, location_name := none, country := none },
         { city_area := "City", tile_id := "City_T1", device_id := "d",
           timestamp_amsterdam := some 200,
           temperature_c := some (.pnum (25/2)),
           latitude := some .pnull, longitude := some .pnull,
           altitude_m := none, location_name := none, country := none }]
        from rfl]
      exact List.mem_cons_of_mem _ (List.mem_cons_self _ _))
    rfl rfl

/-- **C10**.  A device entry whose capability-type list contains no
element that is, case-insensitively, exactly `"temperature"` or `"temp"`
contributes no record: if every measure entry for a `device_id` fails the
capability test, that id is absent from the raw rows and from the
Normalizer's output.  The match is against whole capability strings:
concretely, a device whose only capability is `"temperature_sensor"`
yields no record. -/
theorem C10_capability_filter (pj : PublicJson) (t : TileInfo) (d : String)
    (h : ∀ item ∈ pj.body, ∀ m : DeviceMeasure,
      (d, m) ∈ item.measures → m.type.any capMatches = false) :
    (rawRows pj.body t).filter (fun r => r.device_id == d) = [] ∧
    (parse_public_data pj t).filter (fun r => r.device_id == d) = [] ∧
    parse_public_data
      ⟨[⟨[], [("s1", ⟨[.pstr "temperature_sensor"],
        some (.pdict [("200", .plist [.pnum 7])])⟩)]⟩]⟩
      ⟨"City_T1", "City"⟩ = [] := by
  have habs : ∀ r ∈ rawRows pj.body t, ¬(r.device_id == d) = true := by
    intro r hr hbeq
    have hd : r.device_id = d := by simpa using hbeq
    obtain ⟨item, hitem, m, hm, hcap, _⟩ := mem_rawRows hr
    rw [h item hitem m (hd ▸ hm)] at hcap
    cases hcap
  refine ⟨List.filter_eq_nil.mpr habs, List.filter_eq_nil.mpr ?_, rfl⟩
  intro r hr
  rw [parse_public_data_eq] at hr
  exact habs r (mem_of_mem_dedupByAux _ (List.mem_filter.mp hr).1)

/-- **C10** witness: a device `"d"` whose only capability is
`"Humidity"` is absent from the Normalizer's output. -/
theorem C10_witness :
    (parse_public_data
      ⟨[⟨[], [("d", ⟨[.pstr "Humidity"],
        some (.pdict [("200", .plist [.pnum 7])])⟩)]⟩]⟩
      ⟨"City_T1", "City"⟩).filter (fun r => r.device_id == "d") = [] :=
  (C10_capability_filter _ ⟨"City_T1", "City"⟩ "d"
    (by
      intro item hitem m hm
      rcases List.mem_singleton.mp hitem with rfl
      rcases List.mem_singleton.mp hm with heq
      obtain ⟨-, rfl⟩ := Prod.mk.injEq .. ▸ heq
      rfl)).2.1

theorem join_filter_pos {γ : Type} (dfs : List (List γ)) :
    ((dfs.filter (fun l => 0 < l.length)).join) = dfs.join := by
  simp only [List.join]
  induction dfs with
  | nil => rfl
  | cons l ls ih =>
    by_cases hl : 0 < l.length
    · rw [List.filter_cons_of_pos (by simpa using hl), List.flatten_cons,
        List.flatten_cons, ih]
    · have : l = [] := List.length_eq_zero.mp (by omega)
      subst this
      rw [List.filter_cons_of_neg (by simp), List.flatten_cons, ih,
        List.nil_append]

/-- **C2**.  Over any sequence of per-tile record sets the Aggregator's
accumulator is exactly the non-empty sets in tile order; the final
Dataset is their concatenation deduplicated by `device_id` keeping the
first occurrence (equivalently, of the full concatenation — empty sets
contribute nothing); for every id, the retained record is the first one
of the concatenation carrying that id.  In particular, two tiles
reporting the same device with different temperatures yield exactly the
first tile's record, its `tile_id` included. -/
theorem C2_aggregate_first_wins (dfs : List (List Record))
    (h : (tileLoop (dfs.map (fun df => TileStep.fetched df false))).all_data ≠ []) :
    (tileLoop (dfs.map (fun df => TileStep.fetched df false))).all_data =
      dfs.filter (fun l => 0 < l.length) ∧
    mergeStage (tileLoop (dfs.map (fun df => TileStep.fetched df false))) =
      .written (dedupBy (fun r => r.device_id)
        ((dfs.filter (fun l => 0 < l.length)).join)) ∧
    (dfs.filter (fun l => 0 < l.length)).join = dfs.join ∧
    (∀ d : String,
      (dedupBy (fun r => r.device_id) dfs.join).find?
        (fun r => r.device_id == d) =
      dfs.join.find? (fun r => r.device_id == d)) ∧
    mergeStage (tileLoop
      ([[{ city_area := "A", tile_id := "T1", device_id := "dev",
           timestamp_amsterdam := none, temperature_c := some (.pnum 10),
           latitude := none, longitude := none, altitude_m := none,
           location_name := none, country := none }],
        [{ city_area := "A", tile_id := "T2", device_id := "dev",
           timestamp_amsterdam := none,
           temperature_c := some (.pnum (25/2)),
           latitude := none, longitude := none, altitude_m := none,
           location_name := none, country := none }]].map (fun df => TileStep.fetched df false))) =
      .written
        [{ city_area := "A", tile_id := "T1", device_id := "dev",
           timestamp_amsterdam := none, temperature_c := some (.pnum 10),
           latitude := none, longitude := none, altitude_m := none,
           location_name := none, country := none }] := by
  have hall : (tileLoop (dfs.map
      (fun df => TileStep.fetched df false))).all_data =
      dfs.filter (fun l => 0 < l.length) := by
    rw [tileLoop_all_data, flatMap_fetched_frames]
  refine ⟨hall, ?_, join_filter_pos dfs,
    fun d => find?_dedupBy (fun r => r.device_id) dfs.join d, rfl⟩
  rw [mergeStage, if_neg (by
    rw [hall]
    intro hc
    exact h (hall.trans (List.length_eq_zero.mp hc)))]
  rw [hall]

/-- **C2** witness: two tiles reporting device `"dev"` with temperatures
`10.0` (tile `T1`) and `12.5` (tile `T2`) merge to exactly the `T1`
record. -/
theorem C2_witness :
    mergeStage (tileLoop
      ([[{ city_area := "A", tile_id := "T1", device_id := "dev",
           timestamp_amsterdam := none, temperature_c := some (.pnum 10),
           latitude := none, longitude := none, altitude_m := none,
           location_name := none, country := none }],
        [{ city_area := "A", tile_id := "T2", device_id := "dev",
           timestamp_amsterdam := none,
           temperature_c := some (.pnum (25/2)),
           latitude := none, longitude := none, altitude_m := none,
           location_name := none, country := none }]].map (fun df => TileStep.fetched df false))) =
      .written
        [{ city_area := "A", tile_id := "T1", device_id := "dev",
           timestamp_amsterdam := none, temperature_c := some (.pnum 10),
           latitude := none, longitude := none, altitude_m := none,
           location_name := none, country := none }] :=
  (C2_aggregate_first_wins
    [[{ city_area := "A", tile_id := "T1", device_id := "dev",
        timestamp_amsterdam := none, temperature_c := some (.pnum 10),
        latitude := none, longitude := none, altitude_m := none,
        location_name := none, country := none }],
     [{ city_area := "A", tile_id := "T2", device_id := "dev",
        timestamp_amsterdam := none, temperature_c := some (.pnum (25/2)),
        latitude := none, longitude := none, altitude_m := none,
        location_name := none, country := none }]]
    (fun hc => List.noConfusion hc)).2.2.2.2

/-- **C7**.  An exception while processing one tile is absorbed by the
loop's `except`: the tile is counted as failed (failed count exactly one
higher than the same run without that tile), and the remaining tiles are
still processed, their frames appearing in the final accumulator
unchanged (the accumulator decomposes into the tiles before, the failing
tile's own frames, and the tiles after — the last part identical to what
those tiles contribute on their own).  A raise before the append
(`raised`, e.g. inside `download_tile`) contributes no frame at all; a
raise after the append (`fetched df true`, e.g. pandas `mean` on the
report line) leaves that tile's own frame in place, the source having
already appended it.  In neither case does the run abort. -/
theorem C7_tile_failure_isolated (pre post : List TileStep) (f : TileStep)
    (hf : (∃ e, f = TileStep.raised e) ∨
      (∃ df, df ≠ [] ∧ f = TileStep.fetched df true)) :
    (tileLoop (pre ++ f :: post)).failed_tiles =
      (tileLoop (pre ++ post)).failed_tiles + 1 ∧
    (tileLoop (pre ++ f :: post)).all_data =
      (tileLoop pre).all_data ++ stepFrames f ++ (tileLoop post).all_data ∧
    (tileLoop (pre ++ f :: post)).successful_tiles =
      (tileLoop pre).successful_tiles + stepSucc f +
        (tileLoop post).successful_tiles ∧
    (tileLoop (pre ++ post)).all_data =
      (tileLoop pre).all_data ++ (tileLoop post).all_data ∧
    (∀ e, stepFrames (TileStep.raised e) = []) := by
  have hfail : stepFailed f = 1 := by
    rcases hf with ⟨e, rfl⟩ | ⟨df, hdf, rfl⟩
    · rfl
    · simp [stepFailed, List.length_pos.mpr hdf]
  refine ⟨?_, ?_, ?_, ?_, fun e => rfl⟩
  · rw [tileLoop_failed, tileLoop_failed, List.map_append, List.map_append,
      List.map_cons, List.sum_append, List.sum_append, List.sum_cons, hfail]
    omega
  · rw [tileLoop_all_data, tileLoop_all_data, tileLoop_all_data,
      List.flatMap_append, List.flatMap_cons, List.append_assoc]
  · rw [tileLoop_succ, tileLoop_succ, tileLoop_succ, List.map_append,
      List.map_cons, List.sum_append, List.sum_cons]
    omega
  · rw [tileLoop_all_data, tileLoop_all_data, tileLoop_all_data,
      List.flatMap_append]

/-- **C7** witness: a run whose only tile raises counts one failed tile
relative to the empty run. -/
theorem C7_witness :
    (tileLoop [TileStep.raised "boom"]).failed_tiles =
      (tileLoop []).failed_tiles + 1 :=
  (C7_tile_failure_isolated [] [] (TileStep.raised "boom")
    (Or.inl ⟨"boom", rfl⟩)).1

/-- **C6**.  One call to the Tile Fetcher consumes exactly one transport
outcome (one request attempt, no retry), and converts every failure
shape — HTTP error status, transport error, malformed body — to the
empty-result sentinel `{"body": []}` instead of propagating an
exception (`get_public_data` is total); a successful response passes
through unchanged. -/
theorem C6_fetch_failure_policy (o : FetchOutcome) (ts : List FetchOutcome)
    (code : Nat) (msg : String) (j : PublicJson) :
    (get_public_data (o :: ts)).2 = ts ∧
    (get_public_data (o :: ts)).1 = fetchResult o ∧
    fetchResult (.httpError code) = PublicJson.mk [] ∧
    fetchResult (.transportError msg) = PublicJson.mk [] ∧
    fetchResult (.malformedBody msg) = PublicJson.mk [] ∧
    fetchResult (.success j) = j :=
  ⟨rfl, rfl, rfl, rfl, rfl, rfl⟩

theorem mem_of_mem_dedupBy {α β : Type} [BEq β] [LawfulBEq β]
    (key : α → β) {l : List α} {x : α} (hx : x ∈ dedupBy key l) : x ∈ l :=
  mem_of_mem_dedupByAux key hx

theorem mergeStage_append_fetched (xs : List TileStep) (df : List Record)
    (p : Bool) (hdf : df ≠ []) :
    ∃ ds, mergeStage (tileLoop (xs ++ [TileStep.fetched df p])) =
      RunResult.written ds := by
  rw [mergeStage, if_neg]
  · exact ⟨_, rfl⟩
  · rw [tileLoop_all_data, List.flatMap_append]
    simp [stepFrames, List.length_pos.mpr hdf]

/-- **C8**.  When every tile yields zero usable records — its fetch and
parse either return an empty frame or raise (in particular when every
fetch returns an empty body) — the run ends in the failure state:
`sys.exit(1)` at line 325 runs before `save_data`, so no output file is
written.  By contrast one productive tile suffices: appending a tile
whose fetch+parse returns a non-empty frame to any such run produces a
written dataset, so tiles yielding nothing do not stop the run. -/
theorem C8_all_empty_fails (steps : List RunStep)
    (h : ∀ s ∈ steps, ∀ (o : FetchOutcome) (t : TileInfo) (p : Bool),
      s = RunStep.fetch o t p →
      ∀ df, download_tile_exc o t = Except.ok df → df = []) :
    runMain steps = RunResult.failure ∧
    ∀ (o : FetchOutcome) (t : TileInfo) (p : Bool) (df : List Record),
      download_tile_exc o t = Except.ok df → df ≠ [] →
      ∃ ds, runMain (steps ++ [RunStep.fetch o t p]) =
        RunResult.written ds := by
  constructor
  · rw [runMain, mergeStage, if_pos]
    rw [tileLoop_all_data, flatMap_frames_eq_nil]
    · rfl
    · intro x hx
      rw [List.mem_map] at hx
      obtain ⟨s, hs, rfl⟩ := hx
      cases s with
      | raised e => rfl
      | fetch o t p =>
        simp only [stepOfRun]
        cases hd : download_tile_exc o t with
        | ok df =>
          have hdf : df = [] := h _ hs o t p rfl df hd
          subst hdf
          rfl
        | error e => rfl
  · intro o t p df hd hne
    rw [runMain, List.map_append]
    have hmap : ([RunStep.fetch o t p].map stepOfRun) =
        [TileStep.fetched df p] := by
      simp [stepOfRun, hd]
    rw [hmap]
    exact mergeStage_append_fetched _ df p hne

/-- **C8** witness: a run whose single tile's fetch succeeds with an
empty body ends in failure. -/
theorem C8_witness :
    runMain [RunStep.fetch (FetchOutcome.success ⟨[]⟩)
      ⟨"U_T1", "U"⟩ false] = RunResult.failure :=
  (C8_all_empty_fails
    [RunStep.fetch (FetchOutcome.success ⟨[]⟩) ⟨"U_T1", "U"⟩ false]
    (by
      intro s hs o t p hst df hd
      rcases List.mem_singleton.mp hs with rfl
      cases hst
      exact (Except.ok.inj hd).symm)).1

/-- **C9**.  In every written final Dataset, no record has a missing
temperature (every frame in the accumulator came through
`parse_public_data`'s `dropna`) and `device_id`s are pairwise distinct
(the final `drop_duplicates` keeps one record per device). -/
theorem C9_output_invariants (steps : List RunStep) (ds : List Record)
    (h : runMain steps = RunResult.written ds) :
    (∀ r ∈ ds, isMissing r.temperature_c = false) ∧
    ds.Pairwise (fun a b => a.device_id ≠ b.device_id) := by
  rw [runMain, mergeStage] at h
  split at h
  · cases h
  · injection h with h1
    subst h1
    constructor
    · intro r hr
      have hr1 := mem_of_mem_dedupBy (fun r : Record => r.device_id) hr
      simp only [List.join] at hr1
      rw [List.mem_flatten] at hr1
      obtain ⟨l, hl, hrl⟩ := hr1
      rw [tileLoop_all_data, List.mem_flatMap] at hl
      obtain ⟨x, hx, hlx⟩ := hl
      obtain ⟨df, p, rfl, rfl⟩ := mem_stepFrames hlx
      rw [List.mem_map] at hx
      obtain ⟨s, hs, hmap⟩ := hx
      cases s with
      | raised e => simp [stepOfRun] at hmap
      | fetch o t p' =>
        simp only [stepOfRun] at hmap
        rcases hd : download_tile_exc o t with e' | df'
        · rw [hd] at hmap
          cases hmap
        · rw [hd] at hmap
          obtain ⟨h1, -⟩ := TileStep.fetched.inj hmap
          subst h1
          rcases download_tile_exc_ok hd with rfl | rfl
          · cases hrl
          · exact not_missing_of_mem_parse hrl
    · exact pairwise_key_dedupBy _ _

/-- **C9** witness: a one-tile run with a single valid device writes a
dataset satisfying both invariants. -/
theorem C9_witness :
    (∀ r : Record,
      r ∈ [({ city_area := "U", tile_id := "U_T1", device_id := "dev1",
              timestamp_amsterdam := some 200,
              temperature_c := some (.pnum 21),
              latitude := some (.pnum 52), longitude := some (.pnum 5),
              altitude_m := some (.pnum 10),
              location_name := some (.pstr "U"),
              country := some (.pstr "NL") } : Record)] →
      isMissing r.temperature_c = false) ∧
    List.Pairwise (fun a b => a.device_id ≠ b.device_id)
      [({ city_area := "U", tile_id := "U_T1", device_id := "dev1",
          timestamp_amsterdam := some 200,
          temperature_c := some (.pnum 21),
          latitude := some (.pnum 52), longitude := some (.pnum 5),
          altitude_m := some (.pnum 10),
          location_name := some (.pstr "U"),
          country := some (.pstr "NL") } : Record)] :=
  C9_output_invariants
    [RunStep.fetch (FetchOutcome.success
      ⟨[⟨[("location", .plist [.pnum 5, .pnum 52]),
          ("altitude", .pnum 10), ("city", .pstr "U"),
          ("country", .pstr "NL")],
         [("dev1", ⟨[.pstr "temperature"],
            some (.pdict [("200", .plist [.pnum 21])])⟩)]⟩]⟩)
      ⟨"U_T1", "U"⟩ false]
    _ rfl


theorem ratFloor_eq_floor (q : ℚ) : ratFloor q = ⌊q⌋ := by
  rw [ratFloor]
  exact Rat.floor_def.symm

theorem round4_eq_down (q : ℚ) (f : ℤ) (h1 : (f : ℚ) ≤ q * 10000)
    (h2 : q * 10000 - (f : ℚ) < 1 / 2) : round4 q = (f : ℚ) / 10000 := by
  have hf : ratFloor (q * 10000) = f := by
    rw [ratFloor_eq_floor]
    exact Int.floor_eq_iff.mpr ⟨h1, by linarith⟩
  simp only [round4, hf]
  rw [if_pos h2]

theorem round4_eq_up (q : ℚ) (f : ℤ) (h1 : 1 / 2 < q * 10000 - (f : ℚ))
    (h2 : q * 10000 < (f : ℚ) + 1) : round4 q = ((f : ℚ) + 1) / 10000 := by
  have hf : ratFloor (q * 10000) = f := by
    rw [ratFloor_eq_floor]
    exact Int.floor_eq_iff.mpr ⟨by linarith, h2⟩
  simp only [round4, hf]
  rw [if_neg (by linarith), if_pos h1]
  push_cast
  ring

theorem length_grid {γ : Type} (R C : Nat) (f : Nat → List γ)
    (hf : ∀ r, (f r).length = C) :
    ((List.range R).bind f).length = R * C := by
  simp only [List.bind]
  induction R with
  | zero => simp
  | succ R ih =>
    rw [List.range_succ, List.flatMap_append, List.length_append, ih]
    simp only [List.flatMap_cons, List.flatMap_nil, List.append_nil, hf]
    rw [Nat.succ_mul]

theorem get?_grid {γ : Type} {R C r c : Nat} (f : Nat → Nat → γ)
    (hr : r < R) (hc : c < C) :
    ((List.range R).bind (fun i => (List.range C).map (f i))).get?
      (r * C + c) = some (f r c) := by
  simp only [List.bind]
  induction R with
  | zero => omega
  | succ R ih =>
    have hlen : ((List.range R).flatMap
        (fun i => (List.range C).map (f i))).length = R * C :=
      length_grid R C _ (fun i => by
        rw [List.length_map, List.length_range])
    rw [List.range_succ, List.flatMap_append]
    by_cases h : r < R
    · have hidx : r * C + c < R * C := by
        have h1 : (r + 1) * C = r * C + C := Nat.succ_mul r C
        have h2 : (r + 1) * C ≤ R * C := Nat.mul_le_mul_right C (by omega)
        omega
      rw [List.get?_append (by rw [hlen]; exact hidx)]
      exact ih h
    · have hrR : r = R := by omega
      subst hrR
      rw [List.get?_append_right (by rw [hlen]; omega)]
      rw [hlen]
      have hcc : r * C + c - r * C = c := by omega
      rw [hcc]
      simp only [List.flatMap_cons, List.flatMap_nil, List.append_nil]
      rw [List.get?_map, List.get?_range hc]
      rfl

theorem generate_tiles_eq (name : String) (b : Bounds) (R C : Nat) :
    generate_tiles name b R C =
      (List.range R).bind (fun row => (List.range C).map (fun col =>
        { id := name ++ "_T" ++ toString (row * C + col + 1),
          city := name, row := row, col := col,
          lat_ne := round4 (b.lat_max -
            (row : ℚ) * ((b.lat_max - b.lat_min) / (R : ℚ))),
          lon_ne := round4 (b.lon_min +
            (col : ℚ) * ((b.lon_max - b.lon_min) / (C : ℚ)) +
            (b.lon_max - b.lon_min) / (C : ℚ)),
          lat_sw := round4 (b.lat_max -
            (row : ℚ) * ((b.lat_max - b.lat_min) / (R : ℚ)) -
            (b.lat_max - b.lat_min) / (R : ℚ)),
          lon_sw := round4 (b.lon_min +
            (col : ℚ) * ((b.lon_max - b.lon_min) / (C : ℚ))) })) := rfl

theorem generate_tiles_length (name : String) (b : Bounds) (R C : Nat) :
    (generate_tiles name b R C).length = R * C := by
  rw [generate_tiles_eq]
  exact length_grid R C _ (fun i => by
    rw [List.length_map, List.length_range])

theorem generate_tiles_get? (name : String) (b : Bounds) (R C r c : Nat)
    (hr : r < R) (hc : c < C) :
    (generate_tiles name b R C).get? (r * C + c) =
      some { id := name ++ "_T" ++ toString (r * C + c + 1),
             city := name, row := r, col := c,
             lat_ne := round4 (b.lat_max -
               (r : ℚ) * ((b.lat_max - b.lat_min) / (R : ℚ))),
             lon_ne := round4 (b.lon_min +
               ((c : ℚ) + 1) * ((b.lon_max - b.lon_min) / (C : ℚ))),
             lat_sw := round4 (b.lat_max -
               ((r : ℚ) + 1) * ((b.lat_max - b.lat_min) / (R : ℚ))),
             lon_sw := round4 (b.lon_min +
               (c : ℚ) * ((b.lon_max - b.lon_min) / (C : ℚ))) } := by
  rw [generate_tiles_eq, get?_grid _ hr hc]
  simp only [Option.some.injEq, Tile.mk.injEq, true_and, and_true]
  exact ⟨congrArg round4 (by ring), congrArg round4 (by ring)⟩

theorem example_tiles_eq :
    generate_tiles "X" ⟨52.5, 52, 5.5, 5⟩ 2 2 =
      [⟨"X_T1", "X", 0, 0, 52.5, 5.25, 52.25, 5⟩,
       ⟨"X_T2", "X", 0, 1, 52.5, 5.5, 52.25, 5.25⟩,
       ⟨"X_T3", "X", 1, 0, 52.25, 5.25, 52, 5⟩,
       ⟨"X_T4", "X", 1, 1, 52.25, 5.5, 52, 5.25⟩] := by
  have h0 := generate_tiles_get? "X" ⟨52.5, 52, 5.5, 5⟩ 2 2 0 0
    (by omega) (by omega)
  have h1 := generate_tiles_get? "X" ⟨52.5, 52, 5.5, 5⟩ 2 2 0 1
    (by omega) (by omega)
  have h2 := generate_tiles_get? "X" ⟨52.5, 52, 5.5, 5⟩ 2 2 1 0
    (by omega) (by omega)
  have h3 := generate_tiles_get? "X" ⟨52.5, 52, 5.5, 5⟩ 2 2 1 1
    (by omega) (by omega)
  rw [show (0 : Nat) * 2 + 0 = 0 from rfl] at h0
  rw [show (0 : Nat) * 2 + 1 = 1 from rfl] at h1
  rw [show (1 : Nat) * 2 + 0 = 2 from rfl] at h2
  rw [show (1 : Nat) * 2 + 1 = 3 from rfl] at h3
  apply List.ext
  intro n
  rcases n with _ | _ | _ | _ | m
  · rw [h0]
    simp only [List.get?]
    simp only [Option.some.injEq, Tile.mk.injEq, true_and]
    refine ⟨rfl, ?_, ?_, ?_, ?_⟩
    · refine (round4_eq_down _ 525000 ?_ ?_).trans ?_ <;> norm_num
    · refine (round4_eq_down _ 52500 ?_ ?_).trans ?_ <;> norm_num
    · refine (round4_eq_down _ 522500 ?_ ?_).trans ?_ <;> norm_num
    · refine (round4_eq_down _ 50000 ?_ ?_).trans ?_ <;> norm_num
  · rw [h1]
    simp only [List.get?]
    simp only [Option.some.injEq, Tile.mk.injEq, true_and]
    refine ⟨rfl, ?_, ?_, ?_, ?_⟩
    · refine (round4_eq_down _ 525000 ?_ ?_).trans ?_ <;> norm_num
    · refine (round4_eq_down _ 55000 ?_ ?_).trans ?_ <;> norm_num
    · refine (round4_eq_down _ 522500 ?_ ?_).trans ?_ <;> norm_num
    · refine (round4_eq_down _ 52500 ?_ ?_).trans ?_ <;> norm_num
  · rw [h2]
    simp only [List.get?]
    simp only [Option.some.injEq, Tile.mk.injEq, true_and]
    refine ⟨rfl, ?_, ?_, ?_, ?_⟩
    · refine (round4_eq_down _ 522500 ?_ ?_).trans ?_ <;> norm_num
    · refine (round4_eq_down _ 52500 ?_ ?_).trans ?_ <;> norm_num
    · refine (round4_eq_down _ 520000 ?_ ?_).trans ?_ <;> norm_num
    · refine (round4_eq_down _ 50000 ?_ ?_).trans ?_ <;> norm_num
  · rw [h3]
    simp only [List.get?]
    simp only [Option.some.injEq, Tile.mk.injEq, true_and]
    refine ⟨rfl, ?_, ?_, ?_, ?_⟩
    · refine (round4_eq_down _ 522500 ?_ ?_).trans ?_ <;> norm_num
    · refine (round4_eq_down _ 55000 ?_ ?_).trans ?_ <;> norm_num
    · refine (round4_eq_down _ 520000 ?_ ?_).trans ?_ <;> norm_num
    · refine (round4_eq_down _ 52500 ?_ ?_).trans ?_ <;> norm_num
  · rw [List.get?_eq_none.mpr (by rw [generate_tiles_length]; omega)]
    rfl

/-- **C1** (amended).  For every bounding box and grid size the
Partitioner emits exactly `rows * cols` tiles in row-major order,
north-to-south then west-to-east; the tile at grid position
`(row, col)` — list index `row * cols + col`, identifier suffix
`row * cols + col + 1` — has as corners the **4-decimal roundings** of
`lat_max - (row+1)*lat_step`, `lat_max - row*lat_step`,
`lon_min + col*lon_step` and `lon_min + (col+1)*lon_step` (the source
applies `round(·, 4)` to every corner, so the spans equal those formulas
only up to rounding; see the counterexample).  For the claim's 2×2
example box `{lat_max: 52.5, lat_min: 52, lon_max: 5.5, lon_min: 5}` the
roundings are exact: the four tiles span exactly the claimed rectangles,
are pairwise non-overlapping (disjoint interiors), and their union is
exactly the original box. -/
theorem C1_partition (name : String) (b : Bounds) (R C : Nat) :
    (generate_tiles name b R C).length = R * C ∧
    (∀ r c : Nat, r < R → c < C →
      (generate_tiles name b R C).get? (r * C + c) =
        some { id := name ++ "_T" ++ toString (r * C + c + 1),
               city := name, row := r, col := c,
               lat_ne := round4 (b.lat_max -
                 (r : ℚ) * ((b.lat_max - b.lat_min) / (R : ℚ))),
               lon_ne := round4 (b.lon_min +
                 ((c : ℚ) + 1) * ((b.lon_max - b.lon_min) / (C : ℚ))),
               lat_sw := round4 (b.lat_max -
                 ((r : ℚ) + 1) * ((b.lat_max - b.lat_min) / (R : ℚ))),
               lon_sw := round4 (b.lon_min +
                 (c : ℚ) * ((b.lon_max - b.lon_min) / (C : ℚ))) }) ∧
    generate_tiles "X" ⟨52.5, 52, 5.5, 5⟩ 2 2 =
      [⟨"X_T1", "X", 0, 0, 52.5, 5.25, 52.25, 5⟩,
       ⟨"X_T2", "X", 0, 1, 52.5, 5.5, 52.25, 5.25⟩,
       ⟨"X_T3", "X", 1, 0, 52.25, 5.25, 52, 5⟩,
       ⟨"X_T4", "X", 1, 1, 52.25, 5.5, 52, 5.25⟩] ∧
    (generate_tiles "X" ⟨52.5, 52, 5.5, 5⟩ 2 2).Pairwise tileDisjoint ∧
    (∀ la lo : ℚ, (52 ≤ la ∧ la ≤ 52.5 ∧ 5 ≤ lo ∧ lo ≤ 5.5) ↔
      ∃ t ∈ generate_tiles "X" ⟨52.5, 52, 5.5, 5⟩ 2 2, inTile t la lo) := by
  refine ⟨generate_tiles_length name b R C,
    fun r c hr hc => generate_tiles_get? name b R C r c hr hc,
    example_tiles_eq, ?_, ?_⟩
  · rw [example_tiles_eq]
    refine List.Pairwise.cons ?_
      (List.Pairwise.cons ?_ (List.Pairwise.cons ?_ ?_))
    · intro a ha
      simp only [List.mem_cons, List.not_mem_nil, or_false] at ha
      rcases ha with rfl | rfl | rfl
      · exact Or.inr (Or.inr (Or.inl (by norm_num)))
      · exact Or.inr (Or.inl (by norm_num))
      · exact Or.inr (Or.inr (Or.inl (by norm_num)))
    · intro a ha
      simp only [List.mem_cons, List.not_mem_nil, or_false] at ha
      rcases ha with rfl | rfl
      · exact Or.inr (Or.inl (by norm_num))
      · exact Or.inr (Or.inl (by norm_num))
    · intro a ha
      rcases List.mem_singleton.mp ha with rfl
      exact Or.inr (Or.inr (Or.inl (by norm_num)))
    · exact List.pairwise_singleton _ _
  · intro la lo
    constructor
    · rintro ⟨h1, h2, h3, h4⟩
      rw [example_tiles_eq]
      rcases le_total la 52.25 with hla | hla
      · rcases le_total lo 5.25 with hlo | hlo
        · exact ⟨⟨"X_T3", "X", 1, 0, 52.25, 5.25, 52, 5⟩,
            by simp, h1, hla, h3, hlo⟩
        · exact ⟨⟨"X_T4", "X", 1, 1, 52.25, 5.5, 52, 5.25⟩,
            by simp, h1, hla, hlo, h4⟩
      · rcases le_total lo 5.25 with hlo | hlo
        · exact ⟨⟨"X_T1", "X", 0, 0, 52.5, 5.25, 52.25, 5⟩,
            by simp, hla, h2, h3, hlo⟩
        · exact ⟨⟨"X_T2", "X", 0, 1, 52.5, 5.5, 52.25, 5.25⟩,
            by simp, hla, h2, hlo, h4⟩
    · rintro ⟨t, ht, hin⟩
      rw [example_tiles_eq] at ht
      simp only [List.mem_cons, List.not_mem_nil, or_false] at ht
      rcases ht with rfl | rfl | rfl | rfl <;>
        (simp only [inTile] at hin
         obtain ⟨ha, hb, hc, hd⟩ := hin
         exact ⟨by linarith, by linarith, by linarith, by linarith⟩)

/-- **C1** counterexample.  For the box `{lat_max: 1, lat_min: 0}` split
into 3 rows, the claim says tile `(0, 0)` spans latitude down to
`lat_max - 1*lat_step = 2/3`; the code stores the rounded corner
`round(2/3, 4) = 0.6667 ≠ 2/3`. -/
theorem C1_counterexample :
    (generate_tiles "X" ⟨1, 0, 1, 0⟩ 3 1).get? 0 =
      some ⟨"X_T1", "X", 0, 0, 1, 1, 6667 / 10000, 0⟩ ∧
    (6667 / 10000 : ℚ) ≠ 1 - ((0 : ℚ) + 1) * ((1 - 0) / 3) := by
  constructor
  · have h0 := generate_tiles_get? "X" ⟨1, 0, 1, 0⟩ 3 1 0 0
      (by omega) (by omega)
    rw [show (0 : Nat) * 1 + 0 = 0 from rfl] at h0
    rw [h0]
    simp only [Option.some.injEq, Tile.mk.injEq, true_and]
    refine ⟨rfl, ?_, ?_, ?_, ?_⟩
    · refine (round4_eq_down _ 10000 ?_ ?_).trans ?_ <;> norm_num
    · refine (round4_eq_down _ 10000 ?_ ?_).trans ?_ <;> norm_num
    · refine (round4_eq_up _ 6666 ?_ ?_).trans ?_ <;> norm_num
    · refine (round4_eq_down _ 0 ?_ ?_).trans ?_ <;> norm_num
  · norm_num

/-- **C1** witness: the amended theorem instantiated at the claim's 2×2
example box; the tile at grid position `(0, 0)` is exactly the claimed
`lat[52.25, 52.5] × lon[5.0, 5.25]` rectangle. -/
theorem C1_witness :
    (generate_tiles "X" ⟨52.5, 52, 5.5, 5⟩ 2 2).get? 0 =
      some ⟨"X_T1", "X", 0, 0, 52.5, 5.25, 52.25, 5⟩ :=
  by rw [(C1_partition "X" ⟨52.5, 52, 5.5, 5⟩ 2 2).2.2.1]; rfl
